import Mathlib

/-!
Shallow embedding of `tqdm.h` (single-header C terminal progress bar) and
proofs about its update/throttle state machine and its render pipeline.

Modelling conventions:
* `uint64_t` arithmetic is `ℕ` with explicit `% 2^64` (`U64`) where the C code
  can wrap (`t->current_steps += step`).
* C `long` millisecond timestamps are `ℤ` (CLOCK_MONOTONIC values are far from
  the 64-bit `long` range, so plain integers are faithful; the comparison
  `now_ms - last_ms < t->min_interval_ms` promotes the `uint32_t` interval to
  `long` on LP64, i.e. it is a signed comparison, modelled on `ℤ`).
* C `double` arithmetic on percentages, rates and times is modelled as exact
  `ℚ` arithmetic.  The C `(int)`/`(ssize_t)` casts truncate toward zero,
  modelled by `ctrunc`.  `printf` rounding (`%3.0f`, `%.2f`) is modelled with
  `round` (half away from zero for the reachable non-negative values; the
  claims proved below never sit on a floating-point tie).
* The process-wide `_tqdm_winch` flag and the current time are passed to
  `tqdm_update` explicitly as inputs, and the flag value after the call is
  returned (`winch` field of the result); the `write` syscall is modelled by
  the `wrote` flag plus the pure render pipeline `tqdm_render_line`.
* The file descriptor field `_fd` plays no role in the modelled logic and is
  omitted from the state.
-/

set_option maxRecDepth 100000

/-- `#define TQDM_DEFAULT_TERMINAL_WIDTH 80`. -/
def TQDM_DEFAULT_TERMINAL_WIDTH : ℕ := 80

/-- `#define TQDM_MINIMUM_TERMINAL_WIDTH 10`. -/
def TQDM_MINIMUM_TERMINAL_WIDTH : ℕ := 10

/-- `#define TQDM_MAXIMUM_TERMINAL_WIDTH 1024`. -/
def TQDM_MAXIMUM_TERMINAL_WIDTH : ℕ := 1024

/-- `#define TQDM_MINIMUM_BAR_WIDTH 1`. -/
def TQDM_MINIMUM_BAR_WIDTH : ℕ := 1

/-- The 9-glyph ramp `TQDM_BLOCKS` (blank, eighth blocks, full block), as the
actual UTF-8 strings of the C array. -/
def TQDM_BLOCKS : List String := [" ", "▏", "▎", "▍", "▌", "▋", "▊", "▉", "█"]

/-- `#define TQDM_EMPTY_IDX 0`. -/
def TQDM_EMPTY_IDX : ℕ := 0

/-- `#define TQDM_FULL_IDX 8`. -/
def TQDM_FULL_IDX : ℕ := 8

/-- Modulus of `uint64_t` arithmetic. -/
def U64 : ℕ := 2 ^ 64

/-- C truncation of a real value toward zero (`(int)x` / `(ssize_t)x` casts). -/
def ctrunc (q : ℚ) : ℤ := if 0 ≤ q then ⌊q⌋ else ⌈q⌉

/-- `strlen` of the `i`-th entry of `TQDM_BLOCKS` (1 byte for the blank,
3 bytes for each UTF-8 block glyph). -/
def blockLen (i : ℕ) : ℕ := (TQDM_BLOCKS.getD i "").utf8ByteSize

/-- The `tqdm` struct.  `_fd` is omitted (it does not enter the modelled
logic); all other fields follow the C struct. -/
structure tqdm where
  total_steps : ℕ
  current_steps : ℕ
  description : String
  min_interval_ms : ℕ
  _after_description : String
  _start : ℤ
  _last_print : ℤ
  _drawn : Bool
  _term_width : ℕ
deriving DecidableEq, Repr

/-- `_tqdm_terminal_size`: the ioctl result is passed in as `ioctl_ok` (query
succeeded) and `ws_col` (reported column count); `CLAMP` into
`[TQDM_MINIMUM_TERMINAL_WIDTH, TQDM_MAXIMUM_TERMINAL_WIDTH]`, with the default
width when the query fails or reports zero columns. -/
def _tqdm_terminal_size (ioctl_ok : Bool) (ws_col : ℕ) : ℕ :=
  if ioctl_ok = false then TQDM_DEFAULT_TERMINAL_WIDTH
  else if ws_col ≠ 0 then
    min (max ws_col TQDM_MINIMUM_TERMINAL_WIDTH) TQDM_MAXIMUM_TERMINAL_WIDTH
  else TQDM_DEFAULT_TERMINAL_WIDTH

/-- `int total_seconds = (int)(milliseconds / 1000 + 0.5);` of
`_tqdm_format_time`. -/
def _tqdm_total_seconds (milliseconds : ℚ) : ℤ :=
  ctrunc (milliseconds / 1000 + 1 / 2)

/-- `%02d` of a C `int` (two-digit zero padding; negative values are never
passed by the callers). -/
def fmt02 (n : ℤ) : String :=
  if 0 ≤ n ∧ n < 10 then "0" ++ toString n else toString n

/-- `_tqdm_format_time`: round to (nearest) whole seconds, split into
h/m/s with C integer division, print `H:MM:SS` when hours are present and
`MM:SS` otherwise. -/
def _tqdm_format_time (milliseconds : ℚ) : String :=
  let total_seconds : ℤ := _tqdm_total_seconds milliseconds
  let h : ℤ := total_seconds.tdiv 3600
  let m : ℤ := (total_seconds.tmod 3600).tdiv 60
  let s : ℤ := total_seconds.tmod 60
  if 0 < h then fmt02 h ++ ":" ++ fmt02 m ++ ":" ++ fmt02 s
  else fmt02 m ++ ":" ++ fmt02 s

/-- `%3.0f`: round to an integer, right-justified to width 3. -/
def fmt3_0 (x : ℚ) : String :=
  let s := toString (round x)
  if s.length < 3 then "".pushn ' ' (3 - s.length) ++ s else s

/-- `%.2f` (for the non-negative rates the bar prints): round to two decimal
places and print with exactly two fractional digits. -/
def fmt_2f (x : ℚ) : String :=
  let n : ℤ := round (x * 100)
  toString (n.tdiv 100) ++ "." ++ fmt02 (n.tmod 100)

/-- `tqdm_init`: the current monotonic time and the detected terminal width
are passed in explicitly. -/
def tqdm_init (total_steps : ℕ) (description : String) (min_interval_ms : ℕ)
    (now_ms : ℤ) (term_width : ℕ) : tqdm :=
  { total_steps := total_steps
    current_steps := 0
    description := description
    min_interval_ms := min_interval_ms
    _after_description := if 0 < description.length then ": " else ""
    _start := now_ms
    _last_print := now_ms
    _drawn := false
    _term_width := term_width }

/-- Result of one `tqdm_update` call: the new struct state, the value of the
process-wide `_tqdm_winch` flag after the call, and whether the call wrote
output (reached the render/write path) rather than returning early. -/
structure tqdm_update_result where
  state : tqdm
  winch : Bool
  wrote : Bool
deriving DecidableEq, Repr

/-- The state-machine part of `tqdm_update` (lines 199-220 and 300-303 of
tqdm.h): increment `current_steps` (64-bit wrapping), consume the resize flag,
and either return early (throttled) or fall through to the render/write path,
which sets `_last_print = now_ms` and `_drawn = true`. -/
def tqdm_update (t : tqdm) (step : ℕ) (now_ms : ℤ) (winch : Bool) :
    tqdm_update_result :=
  let last_ms : ℤ := t._last_print
  let cur : ℕ := (t.current_steps + step) % U64
  let force_redraw : Bool := winch
  if t._drawn = true ∧ force_redraw = false ∧
      now_ms - last_ms < (t.min_interval_ms : ℤ) ∧ cur < t.total_steps then
    { state := { t with current_steps := cur }, winch := false, wrote := false }
  else
    { state := { t with current_steps := cur, _last_print := now_ms, _drawn := true }
      winch := false
      wrote := true }

/-- Iterate `tqdm_update` over a list of calls `(step, now_ms, winch)`. -/
def tqdm_run (t : tqdm) : List (ℕ × ℤ × Bool) → tqdm
  | [] => t
  | c :: cs => tqdm_run (tqdm_update t c.1 c.2.1 c.2.2).state cs

/-- Total of the step counts of a call list. -/
def sumSteps (calls : List (ℕ × ℤ × Bool)) : ℕ :=
  (calls.map fun c => c.1).sum

/-- `double percent_complete = (double)t->current_steps / t->total_steps;`. -/
def tqdm_percent (t : tqdm) : ℚ :=
  (t.current_steps : ℚ) / (t.total_steps : ℚ)

/-- The integer percentage the rendered line displays (`%3.0f` of
`percent_complete * 100`). -/
def shownPercent (t : tqdm) : ℤ :=
  round (tqdm_percent t * 100)

/-- `full_cells = (int)filled_cells` where
`filled_cells = percent_complete * bar_width` (lines 269-270 of tqdm.h). -/
def fullCells (percent : ℚ) (bar_width : ℕ) : ℤ :=
  ctrunc (percent * (bar_width : ℚ))

/-- `fractional_cell = filled_cells - full_cells` (line 271 of tqdm.h). -/
def fractionalCell (percent : ℚ) (bar_width : ℕ) : ℚ :=
  percent * (bar_width : ℚ) - (fullCells percent bar_width : ℚ)

/-- The glyph index rendered at cell `i` of the bar (loop body at lines
274-286 of tqdm.h): full block before `full_cells`, the fractional glyph
`(ssize_t)(fractional_cell * 8)` at `full_cells`, blank after it. -/
def barCellIdx (percent : ℚ) (bar_width : ℕ) (i : ℕ) : ℕ :=
  if (i : ℤ) < fullCells percent bar_width then TQDM_FULL_IDX
  else if (i : ℤ) = fullCells percent bar_width then
    (ctrunc (fractionalCell percent bar_width * 8)).toNat
  else TQDM_EMPTY_IDX

/-- The list of glyph indices of the rendered bar region. -/
def barCells (percent : ℚ) (bar_width : ℕ) : List ℕ :=
  (List.range bar_width).map (barCellIdx percent bar_width)

/-- Number of full-block cells actually rendered at a given percent and bar
width. -/
def fullCellCount (percent : ℚ) (bar_width : ℕ) : ℕ :=
  (barCells percent bar_width).countP (fun c => c = TQDM_FULL_IDX)

/-- `bar_width = MAX((int)(width - nonbar_width), TQDM_MINIMUM_BAR_WIDTH)`.
The C subtraction is on `unsigned int` and is then cast to `int`; for every
reachable magnitude (both operands far below `2^31`) that equals the signed
difference, modelled on `ℤ`. -/
def barWidthOf (width nonbar_width : ℕ) : ℕ :=
  (max ((width : ℤ) - (nonbar_width : ℤ)) (TQDM_MINIMUM_BAR_WIDTH : ℤ)).toNat

/-- `orient`: cursor-reset escape prefix, present once the bar has drawn. -/
def tqdm_orient (t : tqdm) : String :=
  if t._drawn then "\r\x1b[K" else ""

/-- The text before the bar region:
`"%s%s%3.0f%% |"` of description, separator and percentage. -/
def tqdm_before_bar (t : tqdm) : String :=
  t.description ++ t._after_description ++ fmt3_0 (tqdm_percent t * 100) ++ "% |"

/-- The text after the bar region:
`"| %llu/%llu [%s<%s, %sit/s]"` of counts, times and rate. -/
def tqdm_after_bar (t : tqdm) (elapsed steps_per_ms remaining : ℚ) : String :=
  "| " ++ toString t.current_steps ++ "/" ++ toString t.total_steps ++ " [" ++
    _tqdm_format_time elapsed ++ "<" ++ _tqdm_format_time remaining ++ ", " ++
    fmt_2f steps_per_ms ++ "it/s]"

/-- Result of the render pipeline of `tqdm_update` (lines 222-298): the
composed pieces, the bar geometry, and `bar_pos`, the final byte offset
reached inside the 1024-byte local `char bar[1024]` buffer (offsets at or
beyond 1024 mean the C code wrote out of bounds). -/
structure tqdm_render where
  before_bar : String
  after_bar : String
  bar_width : ℕ
  cells : List ℕ
  bar_pos : ℕ
  line : String
deriving DecidableEq, Repr

/-- The render pipeline of `tqdm_update`, given the current time and the
terminal width returned by `_tqdm_terminal_size`. -/
def tqdm_render_line (t : tqdm) (now_ms : ℤ) (width : ℕ) : tqdm_render :=
  let elapsed : ℚ := ((now_ms - t._start : ℤ) : ℚ)
  let steps_per_ms : ℚ := (t.current_steps : ℚ) / (elapsed + 1 / 1000000000)
  let percent_complete : ℚ := tqdm_percent t
  let remaining : ℚ :=
    if 0 < steps_per_ms ∧ t.current_steps < t.total_steps then
      ((t.total_steps : ℚ) - (t.current_steps : ℚ)) / steps_per_ms
    else 0
  let pre : String := tqdm_before_bar t
  let suf : String := tqdm_after_bar t elapsed steps_per_ms remaining
  let nonbar_width : ℕ := pre.utf8ByteSize + suf.utf8ByteSize
  let bw : ℕ := barWidthOf width nonbar_width
  let cells : List ℕ := barCells percent_complete bw
  let glyphs : String := String.join (cells.map fun i => TQDM_BLOCKS.getD i "")
  let orient : String := tqdm_orient t
  { before_bar := pre
    after_bar := suf
    bar_width := bw
    cells := cells
    bar_pos := orient.utf8ByteSize + pre.utf8ByteSize + (cells.map blockLen).sum
    line := orient ++ pre ++ glyphs ++ suf }

/-- A sample already-drawn bar state (reachable by one rendering update from
`tqdm_init 10 "" 50 0 80` followed by two throttled steps). -/
def sampleDrawn : tqdm :=
  { total_steps := 10
    current_steps := 3
    description := ""
    min_interval_ms := 50
    _after_description := ""
    _start := 0
    _last_print := 100
    _drawn := true
    _term_width := 80 }

/-- A bar state far past completion (`9/4` of the total). -/
def overshootBar : tqdm :=
  { total_steps := 4
    current_steps := 9
    description := ""
    min_interval_ms := 50
    _after_description := ""
    _start := 0
    _last_print := 0
    _drawn := true
    _term_width := 80 }

/-- A bar state slightly past completion (1001 of 1000 steps). -/
def overshootSlight : tqdm :=
  { total_steps := 1000
    current_steps := 1001
    description := ""
    min_interval_ms := 50
    _after_description := ""
    _start := 0
    _last_print := 0
    _drawn := true
    _term_width := 80 }

/-- The state seen by the render phase of the first `tqdm_update` call on
`tqdm_init 1000 "" 50 0 1024` with `step = 1000` (the step increment happens
before rendering, `_drawn` is still false at that point), on a terminal
reporting `ws_col = 2000` columns, which `_tqdm_terminal_size` clamps
to 1024. -/
def wideState : tqdm :=
  { total_steps := 1000
    current_steps := 1000
    description := ""
    min_interval_ms := 50
    _after_description := ""
    _start := 0
    _last_print := 0
    _drawn := false
    _term_width := 1024 }

/- ==================== helper lemmas ==================== -/

theorem ctrunc_eq_floor {q : ℚ} (h : 0 ≤ q) : ctrunc q = ⌊q⌋ := by
  unfold ctrunc
  rw [if_pos h]

theorem fullCells_eq_floor (percent : ℚ) (bar_width : ℕ) (hp : 0 ≤ percent) :
    fullCells percent bar_width = ⌊percent * (bar_width : ℚ)⌋ :=
  ctrunc_eq_floor (mul_nonneg hp (Nat.cast_nonneg bar_width))

theorem fractionalCell_nonneg (percent : ℚ) (bar_width : ℕ) (hp : 0 ≤ percent) :
    0 ≤ fractionalCell percent bar_width := by
  unfold fractionalCell
  rw [fullCells_eq_floor percent bar_width hp]
  have := Int.floor_le (percent * (bar_width : ℚ))
  linarith

theorem fractionalCell_lt_one (percent : ℚ) (bar_width : ℕ) (hp : 0 ≤ percent) :
    fractionalCell percent bar_width < 1 := by
  unfold fractionalCell
  rw [fullCells_eq_floor percent bar_width hp]
  have := Int.lt_floor_add_one (percent * (bar_width : ℚ))
  linarith

theorem fullCells_mono (percent1 percent2 : ℚ) (bar_width : ℕ)
    (h0 : 0 ≤ percent1) (h12 : percent1 ≤ percent2) :
    fullCells percent1 bar_width ≤ fullCells percent2 bar_width := by
  rw [fullCells_eq_floor percent1 bar_width h0,
    fullCells_eq_floor percent2 bar_width (h0.trans h12)]
  exact Int.floor_le_floor (mul_le_mul_of_nonneg_right h12 (Nat.cast_nonneg bar_width))

theorem barCellIdx_eq_full_iff (percent : ℚ) (bar_width i : ℕ) (hp : 0 ≤ percent) :
    barCellIdx percent bar_width i = TQDM_FULL_IDX ↔
      (i : ℤ) < fullCells percent bar_width := by
  unfold barCellIdx
  split_ifs with h1 h2
  · simp [h1]
  · have hf0 : 0 ≤ fractionalCell percent bar_width * 8 :=
      mul_nonneg (fractionalCell_nonneg percent bar_width hp) (by norm_num)
    have hf8 : fractionalCell percent bar_width * 8 < 8 := by
      have := fractionalCell_lt_one percent bar_width hp
      linarith
    have hlt : ctrunc (fractionalCell percent bar_width * 8) < 8 := by
      rw [ctrunc_eq_floor hf0]
      exact Int.floor_lt.mpr (by exact_mod_cast hf8)
    have hge : 0 ≤ ctrunc (fractionalCell percent bar_width * 8) := by
      rw [ctrunc_eq_floor hf0]
      exact Int.floor_nonneg.mpr hf0
    constructor
    · intro habs
      exfalso
      rw [TQDM_FULL_IDX] at habs
      omega
    · intro habs
      exact absurd habs h1
  · constructor
    · intro habs
      rw [TQDM_EMPTY_IDX, TQDM_FULL_IDX] at habs
      omega
    · intro habs
      exact absurd habs h1

theorem barCellIdx_of_one_le (percent : ℚ) (bar_width i : ℕ)
    (hp : 1 ≤ percent) (hi : i < bar_width) :
    barCellIdx percent bar_width i = TQDM_FULL_IDX := by
  rw [barCellIdx_eq_full_iff percent bar_width i (by linarith)]
  have hbw : (bar_width : ℚ) ≤ percent * (bar_width : ℚ) :=
    le_mul_of_one_le_left (Nat.cast_nonneg bar_width) hp
  have : (bar_width : ℤ) ≤ fullCells percent bar_width := by
    rw [fullCells_eq_floor percent bar_width (by linarith)]
    exact Int.le_floor.mpr (by exact_mod_cast hbw)
  have hii : (i : ℤ) < (bar_width : ℤ) := by exact_mod_cast hi
  omega

theorem barCells_length (percent : ℚ) (bar_width : ℕ) :
    (barCells percent bar_width).length = bar_width := by
  simp [barCells]

theorem tqdm_update_current (t : tqdm) (step : ℕ) (now_ms : ℤ) (winch : Bool) :
    (tqdm_update t step now_ms winch).state.current_steps =
      (t.current_steps + step) % U64 := by
  unfold tqdm_update
  dsimp only
  split <;> rfl

/- ==================== claim theorems ==================== -/

/-- C1: a `tqdm_update` call skips rendering (writes nothing and changes no
state besides `current_steps`) if and only if all four hold: a prior draw has
happened, no forced redraw is pending, the elapsed time since `_last_print`
is strictly below `min_interval_ms`, and the post-increment `current_steps`
is strictly below `total_steps`; in particular a call whose increment reaches
`current_steps = total_steps` always writes output. -/
theorem tqdm_update_skip_iff (t : tqdm) (step : ℕ) (now_ms : ℤ) (winch : Bool) :
    ((tqdm_update t step now_ms winch).wrote = false ↔
      (t._drawn = true ∧ winch = false ∧
        now_ms - t._last_print < (t.min_interval_ms : ℤ) ∧
        (t.current_steps + step) % U64 < t.total_steps)) ∧
    ((tqdm_update t step now_ms winch).wrote = false →
      (tqdm_update t step now_ms winch).state =
        { t with current_steps := (t.current_steps + step) % U64 }) ∧
    ((t.current_steps + step) % U64 = t.total_steps →
      (tqdm_update t step now_ms winch).wrote = true) := by
  unfold tqdm_update
  dsimp only
  split
  next h =>
    exact ⟨by simp [h], fun _ => rfl,
      fun hc => absurd h.2.2.2 (not_lt.mpr (le_of_eq hc.symm))⟩
  next h =>
    exact ⟨by simp [h], fun hfalse => Bool.noConfusion hfalse, fun _ => rfl⟩

/-- Witness for C1 at a concrete throttled call: state `sampleDrawn` (drawn,
`_last_print = 100`, 3 of 10 steps), one step at time 120 with no resize flag
is skipped and only `current_steps` changes. -/
theorem tqdm_update_skip_iff_witness :
    (tqdm_update sampleDrawn 1 120 false).state =
      { sampleDrawn with current_steps := 4 } :=
  (tqdm_update_skip_iff sampleDrawn 1 120 false).2.1 (by decide)

/-- C3: a pending resize flag forces output even inside the throttle window
and short of completion, and the call clears the flag; an immediately
following call within the window, with no new resize event and still short of
completion, writes nothing. -/
theorem tqdm_update_resize_override (t : tqdm) (step1 step2 : ℕ) (now1 now2 : ℤ)
    (hdrawn : t._drawn = true)
    (hthr1 : now1 - t._last_print < (t.min_interval_ms : ℤ))
    (hnc1 : (t.current_steps + step1) % U64 < t.total_steps)
    (hthr2 : now2 - now1 < (t.min_interval_ms : ℤ))
    (hnc2 : ((t.current_steps + step1) % U64 + step2) % U64 < t.total_steps) :
    (tqdm_update t step1 now1 true).wrote = true ∧
    (tqdm_update t step1 now1 true).winch = false ∧
    (tqdm_update (tqdm_update t step1 now1 true).state step2 now2 false).wrote
      = false := by
  have h1 : tqdm_update t step1 now1 true =
      { state :=
          { t with
            current_steps := (t.current_steps + step1) % U64
            _last_print := now1
            _drawn := true }
        winch := false
        wrote := true } := by
    unfold tqdm_update
    dsimp only
    split
    next h => exact absurd h.2.1 (by simp)
    next h => rfl
  rw [h1]
  refine ⟨rfl, rfl, ?_⟩
  unfold tqdm_update
  dsimp only
  split
  next h => rfl
  next h => exact absurd ⟨rfl, rfl, hthr2, hnc2⟩ h

/-- Witness for C3 at concrete inputs: from `sampleDrawn`, a resize-flagged
step at time 120 (inside the 50 ms window since `_last_print = 100`) writes
output and clears the flag, and the immediate next step at time 130 writes
nothing. -/
theorem tqdm_update_resize_override_witness :
    (tqdm_update sampleDrawn 1 120 true).wrote = true ∧
    (tqdm_update sampleDrawn 1 120 true).winch = false ∧
    (tqdm_update (tqdm_update sampleDrawn 1 120 true).state 1 130 false).wrote
      = false :=
  tqdm_update_resize_override sampleDrawn 1 1 120 130
    (by decide) (by decide) (by decide) (by decide) (by decide)

/-- C9: given a monotone clock reading, `_last_print` never decreases across
a `tqdm_update` call; a throttled call changes nothing besides
`current_steps`, and a rendering call sets `_last_print` to the observed
current time and `_drawn` to true. -/
theorem tqdm_update_last_print_invariant (t : tqdm) (step : ℕ) (now_ms : ℤ)
    (winch : Bool) (hmono : t._last_print ≤ now_ms) :
    t._last_print ≤ (tqdm_update t step now_ms winch).state._last_print ∧
    ((tqdm_update t step now_ms winch).wrote = false →
      (tqdm_update t step now_ms winch).state =
        { t with current_steps := (t.current_steps + step) % U64 }) ∧
    ((tqdm_update t step now_ms winch).wrote = true →
      (tqdm_update t step now_ms winch).state._last_print = now_ms ∧
      (tqdm_update t step now_ms winch).state._drawn = true) := by
  unfold tqdm_update
  dsimp only
  split
  · exact ⟨le_refl _, fun _ => rfl, fun habs => Bool.noConfusion habs⟩
  · exact ⟨hmono, fun habs => Bool.noConfusion habs, fun _ => ⟨rfl, rfl⟩⟩

/-- Witness for C9 at a concrete rendering call (resize-forced step from
`sampleDrawn` at time 120). -/
theorem tqdm_update_last_print_invariant_witness :
    sampleDrawn._last_print ≤
      (tqdm_update sampleDrawn 1 120 true).state._last_print ∧
    ((tqdm_update sampleDrawn 1 120 true).wrote = false →
      (tqdm_update sampleDrawn 1 120 true).state =
        { sampleDrawn with current_steps := (sampleDrawn.current_steps + 1) % U64 }) ∧
    ((tqdm_update sampleDrawn 1 120 true).wrote = true →
      (tqdm_update sampleDrawn 1 120 true).state._last_print = 120 ∧
      (tqdm_update sampleDrawn 1 120 true).state._drawn = true) :=
  tqdm_update_last_print_invariant sampleDrawn 1 120 true (by decide)

/-- C10 (amended): as long as the 64-bit step accumulator does not wrap,
once `current_steps` has reached or passed `total_steps` every later
`tqdm_update` call writes output, whatever the timing and the resize flag. -/
theorem tqdm_update_completed_always_writes (t : tqdm) (step : ℕ) (now_ms : ℤ)
    (winch : Bool) (hdone : t.total_steps ≤ t.current_steps)
    (hnowrap : t.current_steps + step < U64) :
    (tqdm_update t step now_ms winch).wrote = true := by
  unfold tqdm_update
  dsimp only
  split
  next h =>
    exfalso
    have hcur := h.2.2.2
    rw [Nat.mod_eq_of_lt hnowrap] at hcur
    omega
  next h => rfl

/-- Witness for the amended C10: a bar over its total (12 of 10 steps) still
writes on the next immediate call. -/
theorem tqdm_update_completed_always_writes_witness :
    (tqdm_update { sampleDrawn with current_steps := 12 } 1 130 false).wrote
      = true :=
  tqdm_update_completed_always_writes { sampleDrawn with current_steps := 12 }
    1 130 false (by decide) (by decide)

/-- Counterexample to C10 as stated: from a fresh bar with `total_steps = 10`,
one rendering call of `2^64 - 1` steps puts `current_steps` at `2^64 - 1`
(at or past the total), yet the following 1-step call inside the throttle
window wraps `current_steps` to 0 and is throttled — it writes nothing. -/
theorem throttle_after_completion_counterexample :
    (tqdm_update (tqdm_init 10 "" 50 0 80) (U64 - 1) 0 false).state.total_steps ≤
      (tqdm_update (tqdm_init 10 "" 50 0 80) (U64 - 1) 0 false).state.current_steps ∧
    (tqdm_update
      (tqdm_update (tqdm_init 10 "" 50 0 80) (U64 - 1) 0 false).state
      1 0 false).wrote = false := by
  decide

/-- Helper: `current_steps` after running a call list accumulates modulo
`2^64`. -/
theorem tqdm_run_current (calls : List (ℕ × ℤ × Bool)) :
    ∀ t : tqdm, t.current_steps < U64 →
      (tqdm_run t calls).current_steps = (t.current_steps + sumSteps calls) % U64 := by
  induction calls with
  | nil =>
    intro t h
    simp [tqdm_run, sumSteps, Nat.mod_eq_of_lt h]
  | cons c cs ih =>
    intro t h
    rw [tqdm_run]
    rw [ih _ (by rw [tqdm_update_current]; exact Nat.mod_lt _ (by norm_num [U64]))]
    rw [tqdm_update_current]
    have hs : sumSteps (c :: cs) = c.1 + sumSteps cs := by simp [sumSteps]
    rw [hs, Nat.mod_add_mod, Nat.add_assoc]

/-- C7 (amended): over any call sequence, `current_steps` accumulates the sum
of the step counts modulo `2^64` (the `uint64_t` wraparound), and a single
call that does not wrap the accumulator never decreases `current_steps`. -/
theorem tqdm_current_steps_accumulate (t : tqdm) (calls : List (ℕ × ℤ × Bool))
    (h : t.current_steps < U64) :
    (tqdm_run t calls).current_steps = (t.current_steps + sumSteps calls) % U64 ∧
    (∀ step : ℕ, ∀ now_ms : ℤ, ∀ winch : Bool, t.current_steps + step < U64 →
      t.current_steps ≤ (tqdm_update t step now_ms winch).state.current_steps) := by
  refine ⟨tqdm_run_current calls t h, ?_⟩
  intro step now_ms winch hnw
  rw [tqdm_update_current, Nat.mod_eq_of_lt hnw]
  exact Nat.le_add_right _ _

/-- Witness for the amended C7 at a concrete call list. -/
theorem tqdm_current_steps_accumulate_witness :
    (tqdm_run sampleDrawn [(2, (110 : ℤ), false)]).current_steps =
      (sampleDrawn.current_steps + sumSteps [(2, (110 : ℤ), false)]) % U64 :=
  (tqdm_current_steps_accumulate sampleDrawn [(2, (110 : ℤ), false)] (by decide)).1

/-- Counterexample to C7 as stated: two calls of `2^64 - 1` and 1 steps on a
fresh bar leave `current_steps = 0`, not the sum `2^64`, and `current_steps`
decreases from the first call to the second. -/
theorem current_steps_sum_counterexample :
    (tqdm_run (tqdm_init 10 "" 50 0 80)
        [(U64 - 1, (0 : ℤ), false), (1, (1 : ℤ), false)]).current_steps ≠
      sumSteps [(U64 - 1, (0 : ℤ), false), (1, (1 : ℤ), false)] ∧
    (tqdm_run (tqdm_init 10 "" 50 0 80)
        [(U64 - 1, (0 : ℤ), false), (1, (1 : ℤ), false)]).current_steps <
      (tqdm_run (tqdm_init 10 "" 50 0 80) [(U64 - 1, (0 : ℤ), false)]).current_steps := by
  decide

unseal Rat.add Rat.mul Rat.inv Rat.sub in
/-- C4: the time formatter rounds milliseconds to the nearest whole second
(within half a second, ties upward), and formats 45000 ms as "00:45" and
3725000 ms as "01:02:05". -/
theorem format_time_spec :
    (∀ ms : ℚ, 0 ≤ ms → |(_tqdm_total_seconds ms : ℚ) - ms / 1000| ≤ 1 / 2) ∧
    _tqdm_format_time 45000 = "00:45" ∧
    _tqdm_format_time 3725000 = "01:02:05" := by
  refine ⟨?_, by decide, by decide⟩
  intro ms hms
  have h0 : (0 : ℚ) ≤ ms / 1000 + 1 / 2 := by
    have := div_nonneg hms (by norm_num : (0 : ℚ) ≤ 1000)
    linarith
  rw [_tqdm_total_seconds, ctrunc_eq_floor h0]
  have h1 := Int.floor_le (ms / 1000 + 1 / 2)
  have h2 := Int.lt_floor_add_one (ms / 1000 + 1 / 2)
  rw [abs_le]
  constructor <;> linarith

/-- Witness for C4's rounding bound at 45000 ms. -/
theorem format_time_spec_witness :
    |(_tqdm_total_seconds 45000 : ℚ) - 45000 / 1000| ≤ 1 / 2 :=
  format_time_spec.1 45000 (by norm_num)

/-- C5: in the rendered bar, every cell before `full_cells` is the full block
(ramp index 8), the cell at `full_cells` (when inside the bar) carries the
glyph selected by truncating `fractional_cell * 8` — in particular a
fractional part of exactly 1/2 selects ramp index 4 — and every cell after it
is blank (ramp index 0). -/
theorem bar_cell_glyph_selection (percent : ℚ) (bar_width i : ℕ)
    (hp : 0 ≤ percent) (hi : i < bar_width) :
    ((i : ℤ) < fullCells percent bar_width →
      (barCells percent bar_width).get
        ⟨i, by rw [barCells_length]; exact hi⟩ = TQDM_FULL_IDX) ∧
    ((i : ℤ) = fullCells percent bar_width →
      (barCells percent bar_width).get
        ⟨i, by rw [barCells_length]; exact hi⟩ =
        (ctrunc (fractionalCell percent bar_width * 8)).toNat) ∧
    (((i : ℤ) = fullCells percent bar_width ∧
        fractionalCell percent bar_width = 1 / 2) →
      (barCells percent bar_width).get
        ⟨i, by rw [barCells_length]; exact hi⟩ = 4) ∧
    (fullCells percent bar_width < (i : ℤ) →
      (barCells percent bar_width).get
        ⟨i, by rw [barCells_length]; exact hi⟩ = TQDM_EMPTY_IDX) := by
  have hcell : (barCells percent bar_width).get
      ⟨i, by rw [barCells_length]; exact hi⟩ = barCellIdx percent bar_width i := by
    simp [barCells]
  rw [hcell]
  refine ⟨?_, ?_, ?_, ?_⟩
  · intro h
    simp [barCellIdx, h]
  · intro h
    simp [barCellIdx, h]
  · rintro ⟨h, hfrac⟩
    have h4 : ctrunc (fractionalCell percent bar_width * 8) = 4 := by
      rw [hfrac]
      norm_num [ctrunc]
    simp [barCellIdx, h, h4]
  · intro h
    simp [barCellIdx, not_lt.mpr h.le, h.ne']

unseal Rat.add Rat.mul Rat.inv Rat.sub in
/-- Witness for C5: at `percent = 1/4` and bar width 2, cell 0 is the boundary
cell with fractional part exactly 1/2, and it renders ramp index 4. -/
theorem bar_cell_glyph_selection_witness :
    (barCells (1 / 4) 2).get ⟨0, by decide⟩ = 4 :=
  (bar_cell_glyph_selection (1 / 4) 2 0 (by norm_num) (by decide)).2.2.1
    ⟨by decide, by decide⟩

/-- C6: at fixed bar width the rendered count of full-block cells is
monotonically non-decreasing in the completion ratio. -/
theorem full_cell_count_mono (percent1 percent2 : ℚ) (bar_width : ℕ)
    (h0 : 0 ≤ percent1) (h12 : percent1 < percent2) :
    fullCellCount percent1 bar_width ≤ fullCellCount percent2 bar_width := by
  unfold fullCellCount barCells
  rw [List.countP_map, List.countP_map]
  apply List.countP_mono_left
  intro i _hi h
  simp only [Function.comp_apply, decide_eq_true_eq] at h ⊢
  rw [barCellIdx_eq_full_iff percent1 bar_width i h0] at h
  rw [barCellIdx_eq_full_iff percent2 bar_width i (h0.trans h12.le)]
  exact lt_of_lt_of_le h (fullCells_mono percent1 percent2 bar_width h0 h12.le)

/-- Witness for C6 at ratios 1/2 and 3/4 on a 4-cell bar. -/
theorem full_cell_count_mono_witness :
    fullCellCount (1 / 2) 4 ≤ fullCellCount (3 / 4) 4 :=
  full_cell_count_mono (1 / 2) (3 / 4) 4 (by norm_num) (by norm_num)

/-- C8 (amended): on overshoot (`current_steps > total_steps > 0`) nothing is
clamped: the displayed percentage is the unclamped rounded value, which is at
least 100 and strictly exceeds 100 as soon as the exact percentage passes
100.5, and every cell of the bar region is the full block glyph. -/
theorem overshoot_renders_full (t : tqdm) (bar_width i : ℕ)
    (ht : 0 < t.total_steps) (hover : t.total_steps < t.current_steps)
    (hi : i < bar_width) :
    100 ≤ shownPercent t ∧
    (100 + 1 / 2 < tqdm_percent t * 100 → 100 < shownPercent t) ∧
    barCellIdx (tqdm_percent t) bar_width i = TQDM_FULL_IDX := by
  have htq : (0 : ℚ) < (t.total_steps : ℚ) := by exact_mod_cast ht
  have hp1 : 1 < tqdm_percent t := by
    rw [tqdm_percent, one_lt_div htq]
    exact_mod_cast hover
  refine ⟨?_, ?_, barCellIdx_of_one_le _ _ _ hp1.le hi⟩
  · rw [shownPercent, round_eq, Int.le_floor]
    push_cast
    linarith
  · intro hgt
    rw [shownPercent, round_eq]
    have h101 : (101 : ℤ) ≤ ⌊tqdm_percent t * 100 + 1 / 2⌋ := by
      rw [Int.le_floor]
      push_cast
      linarith
    omega

/-- Witness for the amended C8 on `overshootBar` (9 of 4 steps, a 5-cell
bar, cell 2). -/
theorem overshoot_renders_full_witness :
    100 ≤ shownPercent overshootBar ∧
    (100 + 1 / 2 < tqdm_percent overshootBar * 100 →
      100 < shownPercent overshootBar) ∧
    barCellIdx (tqdm_percent overshootBar) 5 2 = TQDM_FULL_IDX :=
  overshoot_renders_full overshootBar 5 2 (by decide) (by decide) (by decide)

unseal Rat.add Rat.mul Rat.inv Rat.sub in
/-- Counterexample to C8 as stated: at 1001 of 1000 steps (overshoot by
0.1 %) the rendered percentage field is the rounded "100", not a value
strictly greater than 100 %. -/
theorem overshoot_display_counterexample :
    overshootSlight.total_steps < overshootSlight.current_steps ∧
    0 < overshootSlight.total_steps ∧
    shownPercent overshootSlight = 100 ∧
    tqdm_before_bar overshootSlight = "100% |" := by
  decide

unseal Rat.add Rat.mul Rat.inv Rat.sub in
/-- C2 (buffer-bounds evaluation): at the completed 1000/1000 bar `wideState`
on a terminal reporting 2000 columns (clamped by `_tqdm_terminal_size` to the
1024 maximum), the bar region is 983 cells, each rendered as a 3-byte UTF-8
full block, so the final write offset into the 1024-byte `char bar[1024]`
buffer is 2955 — far past the end of the buffer (the minimum-bar-width floor
itself holds at this input). -/
theorem bar_buffer_overflow :
    _tqdm_terminal_size true 2000 = TQDM_MAXIMUM_TERMINAL_WIDTH ∧
    TQDM_MINIMUM_BAR_WIDTH ≤ (tqdm_render_line wideState 5000 1024).bar_width ∧
    (tqdm_render_line wideState 5000 1024).bar_width = 983 ∧
    (tqdm_render_line wideState 5000 1024).bar_pos = 2955 ∧
    1024 < (tqdm_render_line wideState 5000 1024).bar_pos := by
  decide
